import Mathlib

/-!
# sqljsondb: a JSON document store over a relational backend

A shallow embedding of `sqljsondb.go`.  The driver's methods are state-passing
functions on a `Driver` record.  The relational engine (gorose), the JSON
codecs (encoding/json, jsoniter) and the digest (xxhash) are libraries outside
the repository: they are taken as parameters, collected in `Deps`.  Every call
the driver makes to the backend, and every invocation of `AfterUpdateFunc`, is
appended to the driver's `trace`, so that "which statement was issued" and "was
the hook invoked" are observable.

The methods are modelled from the point where `DB()` has returned an ORM; the
connection retry loop of `DB()` is modelled separately (`DBLoop`, `DB`).
Execution is sequential: one method call at a time.
-/

set_option autoImplicit false

namespace Sqljsondb

/-! ## Go values -/

/-- A Go byte slice `[]byte`. -/
abbrev Bytes := List UInt8

/-- The conversion `[]byte(s)` of a Go string: its UTF-8 bytes. -/
def bytesOf (s : String) : Bytes := s.toUTF8.data.toList

/-- A Go `error` value, identified by its message (`errors.New(msg)`). -/
structure GoError where
  msg : String
  deriving DecidableEq, Repr

/-- The dynamic values (`interface{}`) found in a row returned by the backend:
`nil`, a string, or a value of any other dynamic type. -/
inductive Iface where
  | nil
  | str (s : String)
  | other (tag : Nat)
  deriving DecidableEq, Repr

/-- A row `gorose.Data`, that is `map[string]interface{}`; the nil map is `[]`. -/
abbrev Data := List (String × Iface)

/-- Indexing `data[k]` of a Go map: the zero value `nil` when the key is absent. -/
def Data.index (d : Data) (k : String) : Iface :=
  match d.lookup k with
  | some v => v
  | none => Iface.nil

/-- A positional argument handed to `Execute`. -/
inductive SqlArg where
  | str (s : String)
  | bytes (b : Bytes)
  | u64 (n : Nat)
  deriving DecidableEq, Repr

/-- The result of a Go call that may panic (a failed type assertion). -/
inductive Outcome (α : Type) where
  | ret (a : α)
  | panic
  deriving DecidableEq, Repr

/-! ## Collaborators and driver state -/

/-- What the driver did to the outside world, in order. -/
inductive Event (ι : Type) where
  | execute (sql : String) (args : List SqlArg)
  | first (table : String) (key : String) (field : String)
  | select (table : String) (field : String)
  | get (table : String) (field : String)
  | query (sql : String)
  | hook (col : String) (key : String) (i : ι)

/-- The libraries the driver calls: `σ` is the backend's state, `ι` the type of
values written, `τ` the type of decode targets. -/
structure Deps (σ ι τ : Type) where
  /-- `orm.Execute(sql, args...)`: affected rows or an error. -/
  Execute : σ → String → List SqlArg → Except GoError Int × σ
  /-- `orm.Table(table).Where("id", key).Fields(field).First()`. -/
  First : σ → String → String → String → Except GoError Data × σ
  /-- `orm.Table(table).Fields(field).Select()`. -/
  Select : σ → String → String → Option GoError × σ
  /-- `orm.Get()` on the ORM prepared with `Table(table).Fields(field)`. -/
  Get : σ → String → String → Except GoError (List Data) × σ
  /-- `orm.GetISession().Query(sql)`: `none` is the nil slice. -/
  Query : σ → String → Except GoError (Option (List Data)) × σ
  /-- `json.MarshalIndent(i, "", "\t")`. -/
  MarshalIndent : ι → Except GoError Bytes
  /-- `json.Unmarshal(raw, &v)`: the target after the call, and the error. -/
  Unmarshal : Bytes → τ → τ × Option GoError
  /-- `jsoniter.Unmarshal(raw, &v)`. -/
  JsoniterUnmarshal : Bytes → τ → τ × Option GoError
  /-- `xxhash.Sum64(b)`, a `uint64`. -/
  Sum64 : Bytes → Nat
  Sum64_lt : ∀ b, Sum64 b < 2 ^ 64

/-- The `Driver` struct.  `ExistsCol` is the `sync.Map` (`Load` is application,
`Store` is `Function.update`); `AfterUpdateFunc` tells whether the callback
field is non-nil; `conn` is the backend behind `DB()`. -/
structure Driver (σ ι : Type) where
  TablePrefix : String
  ExistsCol : String → Option Bool
  AfterUpdateFunc : Bool
  conn : σ
  trace : List (Event ι)

variable {σ ι τ : Type}

/-- Record a backend call: the new backend state and the event. -/
def Driver.step (t : Driver σ ι) (conn : σ) (e : Event ι) : Driver σ ι :=
  { t with conn := conn, trace := t.trace ++ [e] }

/-- `func (t *Driver) TableName(col string) string`. -/
def Driver.TableName (t : Driver σ ι) (col : String) : String :=
  t.TablePrefix ++ col

/-! ## Statement texts (the `fmt.Sprintf` calls) -/

/-- The format of `TryCreateTable`, with `%s` replaced by `table`. -/
def createTableSQL (table : String) : String :=
  "CREATE TABLE IF NOT EXISTS `" ++ table ++ "` ( `aid` BIGINT NOT NULL AUTO_INCREMENT, `id` VARCHAR(128) NOT NULL, j LONGTEXT NOT NULL, xxh BIGINT UNSIGNED, create_time INT DEFAULT UNIX_TIMESTAMP(), update_time DATETIME DEFAULT 0 ON UPDATE CURRENT_TIMESTAMP(), PRIMARY KEY (`aid`), UNIQUE (`id`), UNIQUE (`xxh`)) ROW_FORMAT=COMPRESSED"

/-- The format of `Write`. -/
def writeSQL (table : String) : String :=
  "INSERT INTO `" ++ table ++ "` (id, j, xxh) VALUES (?, ?, ?) ON DUPLICATE KEY UPDATE j=?, xxh=?"

/-- The format of `WriteIgnore`. -/
def writeIgnoreSQL (table : String) : String :=
  "INSERT IGNORE INTO `" ++ table ++ "` (id, j, xxh) VALUES (?, ?, ?) ON DUPLICATE KEY UPDATE j=?, xxh=?"

/-- The format of `KeysWhereSQL`. -/
def keysWhereSQL (table : String) (WhereSQL : String) : String :=
  "SELECT id FROM " ++ table ++ " WHERE " ++ WhereSQL

/-! ## The methods -/

/-- `func (t *Driver) TryCreateTable(col string) error`. -/
def TryCreateTable (D : Deps σ ι τ) (t : Driver σ ι) (col : String) :
    Option GoError × Driver σ ι :=
  if (t.ExistsCol col).isSome then
    (none, t)
  else
    let sql := createTableSQL (t.TableName col)
    let r := D.Execute t.conn sql []
    let t1 := t.step r.2 (Event.execute sql [])
    match r.1 with
    | Except.error err => (some err, t1)
    | Except.ok _ => (none, { t1 with ExistsCol := Function.update t1.ExistsCol col (some true) })

/-- `func (t *Driver) ReadRaw(col string, key string) ([]byte, error)`.
The bytes are `none` for the nil slice. -/
def ReadRaw (D : Deps σ ι τ) (t : Driver σ ι) (col key : String) :
    Outcome (Option Bytes × Option GoError) × Driver σ ι :=
  match TryCreateTable D t col with
  | (some err, t1) => (Outcome.ret (none, some err), t1)
  | (none, t1) =>
    let r := D.First t1.conn (t1.TableName col) key "j"
    let t2 := t1.step r.2 (Event.first (t1.TableName col) key "j")
    match r.1 with
    | Except.error err => (Outcome.ret (none, some err), t2)
    | Except.ok data =>
      match data.index "j" with
      | Iface.nil => (Outcome.ret (none, some ⟨"Document not exists"⟩), t2)
      | Iface.str s => (Outcome.ret (some (bytesOf s), none), t2)
      | Iface.other _ => (Outcome.panic, t2)

/-- `func (t *Driver) Read(col string, key string, v interface{}) error`.
Returns the error, the target `v` after the call, and the driver. -/
def Read (D : Deps σ ι τ) (t : Driver σ ι) (col key : String) (v : τ) :
    Outcome (Option GoError) × τ × Driver σ ι :=
  match ReadRaw D t col key with
  | (Outcome.panic, t1) => (Outcome.panic, v, t1)
  | (Outcome.ret (_, some err), t1) => (Outcome.ret (some err), v, t1)
  | (Outcome.ret (raw, none), t1) =>
    let u := D.Unmarshal (raw.getD []) v
    (Outcome.ret none, u.1, t1)

/-- `func (t *Driver) ReadWithJsoniter(col string, key string, v interface{}) error`. -/
def ReadWithJsoniter (D : Deps σ ι τ) (t : Driver σ ι) (col key : String) (v : τ) :
    Outcome (Option GoError) × τ × Driver σ ι :=
  match TryCreateTable D t col with
  | (some err, t1) => (Outcome.ret (some err), v, t1)
  | (none, t1) =>
    let r := D.First t1.conn (t1.TableName col) key "j"
    let t2 := t1.step r.2 (Event.first (t1.TableName col) key "j")
    match r.1 with
    | Except.error err => (Outcome.ret (some err), v, t2)
    | Except.ok data =>
      match data.index "j" with
      | Iface.nil => (Outcome.ret (some ⟨"Document not exists"⟩), v, t2)
      | Iface.str s =>
        let u := D.JsoniterUnmarshal (bytesOf s) v
        (Outcome.ret none, u.1, t2)
      | Iface.other _ => (Outcome.panic, v, t2)

/-- The hook call at the end of `Write` and `WriteIgnore`:
`if t.AfterUpdateFunc != nil { t.AfterUpdateFunc(col, key, i) }`. -/
def Driver.afterUpdate (t : Driver σ ι) (col key : String) (i : ι) : Driver σ ι :=
  if t.AfterUpdateFunc then { t with trace := t.trace ++ [Event.hook col key i] } else t

/-- The common body of `Write` and `WriteIgnore`, which differ in the format
string only. -/
def writeWith (format : String → String) (D : Deps σ ι τ) (t : Driver σ ι)
    (col key : String) (i : ι) : Option GoError × Driver σ ι :=
  match TryCreateTable D t col with
  | (some err, t1) => (some err, t1)
  | (none, t1) =>
    match D.MarshalIndent i with
    | Except.error err => (some err, t1)
    | Except.ok raw =>
      let xxh := D.Sum64 (raw ++ bytesOf key)
      let sql := format (t1.TableName col)
      let args := [SqlArg.str key, SqlArg.bytes raw, SqlArg.u64 xxh, SqlArg.bytes raw, SqlArg.u64 xxh]
      let r := D.Execute t1.conn sql args
      let t2 := t1.step r.2 (Event.execute sql args)
      let t3 := t2.afterUpdate col key i
      match r.1 with
      | Except.error err => (some err, t3)
      | Except.ok _ => (none, t3)

/-- `func (t *Driver) Write(col string, key string, i interface{}) error`. -/
def Write (D : Deps σ ι τ) (t : Driver σ ι) (col key : String) (i : ι) :
    Option GoError × Driver σ ι :=
  writeWith writeSQL D t col key i

/-- `func (t *Driver) WriteIgnore(col string, key string, i interface{}) error`. -/
def WriteIgnore (D : Deps σ ι τ) (t : Driver σ ι) (col key : String) (i : ι) :
    Option GoError × Driver σ ι :=
  writeWith writeIgnoreSQL D t col key i

/-- The loop `for k, v := range data { keys[k] = v["id"].(string) }` over a
slice made with `make([]string, len(data))`; the assertion panics on a value
that is not a string. -/
def idColumn : List Data → Outcome (List String)
  | [] => Outcome.ret []
  | v :: rest =>
    match v.index "id" with
    | Iface.str s =>
      match idColumn rest with
      | Outcome.ret keys => Outcome.ret (s :: keys)
      | Outcome.panic => Outcome.panic
    | _ => Outcome.panic

/-- `func (t *Driver) Keys(col string) ([]string, error)`. -/
def Keys (D : Deps σ ι τ) (t : Driver σ ι) (col : String) :
    Outcome (Option (List String) × Option GoError) × Driver σ ι :=
  match TryCreateTable D t col with
  | (some err, t1) => (Outcome.ret (none, some err), t1)
  | (none, t1) =>
    let s := D.Select t1.conn (t1.TableName col) "id"
    let t2 := t1.step s.2 (Event.select (t1.TableName col) "id")
    let r := D.Get t2.conn (t2.TableName col) "id"
    let t3 := t2.step r.2 (Event.get (t2.TableName col) "id")
    match r.1 with
    | Except.error err => (Outcome.ret (none, some err), t3)
    | Except.ok data =>
      match idColumn data with
      | Outcome.ret keys => (Outcome.ret (some keys, none), t3)
      | Outcome.panic => (Outcome.panic, t3)

/-- `func (t *Driver) KeysWhereSQL(col string, WhereSQL string) ([]string, error)`. -/
def KeysWhereSQL (D : Deps σ ι τ) (t : Driver σ ι) (col WhereSQL : String) :
    Outcome (Option (List String) × Option GoError) × Driver σ ι :=
  match TryCreateTable D t col with
  | (some err, t1) => (Outcome.ret (none, some err), t1)
  | (none, t1) =>
    let sql := keysWhereSQL (t1.TableName col) WhereSQL
    let r := D.Query t1.conn sql
    let t2 := t1.step r.2 (Event.query sql)
    match r.1 with
    | Except.error err => (Outcome.ret (none, some err), t2)
    | Except.ok none => (Outcome.ret (some [], none), t2)
    | Except.ok (some data) =>
      match idColumn data with
      | Outcome.ret keys => (Outcome.ret (some keys, none), t2)
      | Outcome.panic => (Outcome.panic, t2)

/-! ## The connection retry loop of `DB()` -/

/-- The constant `time.Second`, in nanoseconds. -/
def Second : Nat := 1000000000

/-- The `for` loop of `DB()`, entered with the counter `cnt`.  `opens` lists the
outcomes of the successive `gorose.Open` calls.  Returns the durations passed
to `time.Sleep`, in order, and the engine once an `Open` has succeeded (`none`
while every listed attempt has failed and the loop is still retrying). -/
def DBLoop {ε : Type} : Nat → List (Except GoError ε) → List Nat × Option ε
  | _, [] => ([], none)
  | _, Except.ok e :: _ => ([], some e)
  | cnt, Except.error _ :: rest =>
    let cnt1 := cnt + 1
    let cnt2 := if cnt1 > 60 then 60 else cnt1
    let r := DBLoop cnt2 rest
    (cnt2 * Second :: r.1, r.2)

/-- `func (t *Driver) DB() gorose.IOrm`, on the field `DBEngine`: the sleeps
performed and the engine the ORM is made from. -/
def DB {ε : Type} (DBEngine : Option ε) (opens : List (Except GoError ε)) :
    List Nat × Option ε :=
  match DBEngine with
  | some e => ([], some e)
  | none => DBLoop 1 opens

/-! ## A concrete instance

An in-memory backend and a codec for Go strings, on which the methods can be
run.  The backend is a test double: it keeps one row per `(table, id)`, and
does not enforce the uniqueness of `xxh`. -/

/-- A stored row: the table it belongs to and the columns `id`, `j`, `xxh`. -/
structure MemRow where
  table : String
  id : String
  j : Bytes
  xxh : Nat
  deriving DecidableEq, Repr

/-- The state of the in-memory backend. -/
structure MemDB where
  tables : List String
  rows : List MemRow
  deriving DecidableEq, Repr

/-- The character that quotes a table name in a statement. -/
def nameQuote : Char := Char.ofNat 96

/-- The first quoted name of a statement. -/
def quotedName (sql : String) : String :=
  String.mk (((sql.data.dropWhile (fun c => c != nameQuote)).drop 1).takeWhile
    (fun c => c != nameQuote))

/-- The text of a `LONGTEXT` column holding the bytes `b` (ASCII payloads). -/
def textOf (b : Bytes) : String := String.mk (b.map (fun x => Char.ofNat x.toNat))

/-- Statement execution of the in-memory backend: `CREATE TABLE IF NOT EXISTS`
and the `INSERT` forms with five arguments.  A conflict on `id` updates the row
when the statement ends in the `ON DUPLICATE KEY UPDATE` clause; without the
clause it is ignored under `INSERT IGNORE` and an error otherwise. -/
def memExecute (db : MemDB) (sql : String) (args : List SqlArg) : Except GoError Int × MemDB :=
  let table := quotedName sql
  if "CREATE TABLE IF NOT EXISTS ".data.isPrefixOf sql.data then
    if table == "" then (Except.error ⟨"Incorrect table name ''"⟩, db)
    else if db.tables.contains table then (Except.ok 0, db)
    else (Except.ok 0, { db with tables := table :: db.tables })
  else if "INSERT ".data.isPrefixOf sql.data then
    if db.tables.contains table then
      match args with
      | [SqlArg.str key, SqlArg.bytes raw, SqlArg.u64 h, SqlArg.bytes raw2, SqlArg.u64 h2] =>
        if db.rows.any (fun r => r.table == table && r.id == key) then
          if " ON DUPLICATE KEY UPDATE j=?, xxh=?".data.isSuffixOf sql.data then
            (Except.ok 2, { db with rows := db.rows.map (fun r =>
              if r.table == table && r.id == key then { r with j := raw2, xxh := h2 } else r) })
          else if "INSERT IGNORE ".data.isPrefixOf sql.data then (Except.ok 0, db)
          else (Except.error ⟨"Duplicate entry"⟩, db)
        else (Except.ok 1, { db with rows := db.rows ++ [⟨table, key, raw, h⟩] })
      | _ => (Except.error ⟨"wrong number of arguments"⟩, db)
    else (Except.error ⟨"Table doesn't exist"⟩, db)
  else (Except.error ⟨"unsupported statement"⟩, db)

/-- The rows of a table, each as the map with the one column asked for. -/
def memRows (db : MemDB) (table field : String) : List Data :=
  (db.rows.filter (fun r => r.table == table)).map (fun r =>
    if field == "id" then [(field, Iface.str r.id)]
    else if field == "j" then [(field, Iface.str (textOf r.j))]
    else [(field, Iface.other 0)])

/-- The query of the in-memory backend: `SELECT id FROM table WHERE 1`. -/
def memQuery (db : MemDB) (sql : String) : Except GoError (Option (List Data)) × MemDB :=
  if "SELECT id FROM ".data.isPrefixOf sql.data then
    let rest := sql.data.drop 15
    let table := String.mk (rest.takeWhile (fun c => c != ' '))
    if rest.dropWhile (fun c => c != ' ') == " WHERE 1".data then
      if db.tables.contains table then
        match memRows db table "id" with
        | [] => (Except.ok none, db)
        | rows => (Except.ok (some rows), db)
      else (Except.error ⟨"Table doesn't exist"⟩, db)
    else (Except.error ⟨"unsupported condition"⟩, db)
  else (Except.error ⟨"unsupported statement"⟩, db)

/-- The JSON text of a Go string of letters, digits and blanks. -/
def quoteJSON (s : String) : Bytes := bytesOf ("\"" ++ s ++ "\"")

/-- The decoder `json.Unmarshal` on a `*string` target, for a text that is a
string literal without escapes (decoded into the target) or the text of a
number, an array or an object (an error, the target not being assigned). -/
def unquoteJSON (raw : Bytes) (v : String) : String × Option GoError :=
  match raw with
  | 34 :: rest =>
    match rest.reverse with
    | 34 :: body =>
      if body.all (fun x => x != 34 && x != 92 && 32 ≤ x.toNat && x.toNat < 127) then
        (textOf body.reverse, none)
      else (v, some ⟨"invalid string literal"⟩)
    | _ => (v, some ⟨"unexpected end of JSON input"⟩)
  | _ => (v, some ⟨"cannot unmarshal into Go value of type string"⟩)

/-- The decoder `jsoniter.Unmarshal` on a `*string` target, for the same texts:
on a text that is not a string literal it stores the empty string into the
target before it reports the error. -/
def jsoniterUnquote (raw : Bytes) (v : String) : String × Option GoError :=
  match (unquoteJSON raw v).2 with
  | none => unquoteJSON raw v
  | some err => ("", some err)

/-- A 64-bit digest (FNV-1a), standing for `xxhash.Sum64` in concrete runs. -/
def fnvDigest (b : Bytes) : Nat :=
  b.foldl (fun h x => ((h ^^^ x.toNat) * 1099511628211) % 2 ^ 64) 14695981039346656037

/-- The concrete collaborators: in-memory backend, string codec, FNV digest. -/
def memDeps : Deps MemDB String String where
  Execute := memExecute
  First := fun db table key field =>
    match (memRows db table field).zip (db.rows.filter (fun r => r.table == table)) |>.find?
        (fun p => p.2.id == key) with
    | some p => (Except.ok p.1, db)
    | none => (Except.ok [], db)
  Select := fun db _ _ => (none, db)
  Get := fun db table field =>
    if db.tables.contains table then (Except.ok (memRows db table field), db)
    else (Except.error ⟨"Table doesn't exist"⟩, db)
  Query := memQuery
  MarshalIndent := fun s => Except.ok (quoteJSON s)
  Unmarshal := unquoteJSON
  JsoniterUnmarshal := jsoniterUnquote
  Sum64 := fnvDigest
  Sum64_lt := by
    intro b
    unfold fnvDigest
    induction b using List.reverseRecOn with
    | nil => norm_num
    | append_singleton l a _ =>
      rw [List.foldl_append]
      exact Nat.mod_lt _ (by norm_num)

/-- A fresh driver over the empty in-memory backend, as made by `New(dsn, pfx)`
with the hook field set to `hook`. -/
def newDriver (pfx : String) (hook : Bool) : Driver MemDB String :=
  { TablePrefix := pfx, ExistsCol := fun _ => none, AfterUpdateFunc := hook,
    conn := ⟨[], []⟩, trace := [] }

/-! ## The equality oracle -/

/-- A value decoded from JSON into `interface{}`: nil, `bool`, `float64`,
`string`, `[]interface{}` or `map[string]interface{}`.  A finite `float64` is
given by the rational number it denotes, on which Go's `==` is equality.  A Go
map has no order: it is given by its entries sorted by key (see `canon`). -/
inductive JVal where
  | null
  | bool (b : Bool)
  | num (x : ℚ)
  | str (s : String)
  | arr (xs : List JVal)
  | obj (m : List (String × JVal))

/-- A variable of type `map[string]interface{}`: `none` is the nil map. -/
abbrev GoMap := Option (List (String × JVal))

/-- The order of map keys: the lexicographic order of their characters. -/
def keyLt (a b : String) : Bool := decide (a.data < b.data)

/-- Whether the keys of the entries are strictly increasing. -/
def keysSorted (m : List (String × JVal)) : Bool :=
  decide (List.Pairwise (fun a b => keyLt a b = true) (m.map Prod.fst))

mutual
/-- Whether every map inside a value is given by its key-sorted entries. -/
def canon : JVal → Bool
  | JVal.arr xs => canonList xs
  | JVal.obj m => keysSorted m && canonMembers m
  | _ => true
/-- The elements of a slice are all canonical. -/
def canonList : List JVal → Bool
  | [] => true
  | x :: xs => canon x && canonList xs
/-- The values of the entries are all canonical. -/
def canonMembers : List (String × JVal) → Bool
  | [] => true
  | (_, v) :: rest => canon v && canonMembers rest
end

/-- Whether a map variable is nil or holds a canonical map. -/
def canonMap : GoMap → Bool
  | none => true
  | some m => canon (JVal.obj m)

mutual
/-- The function `reflect.DeepEqual` on two decoded values, after its
documentation: values of different dynamic types are never deeply equal;
`bool`, `float64` and `string` are compared with `==`; slices are deeply equal
when they have the same length and deeply equal elements; maps when they have
the same length and every key of the first maps, in the second, to a deeply
equal value. -/
def deepEqual : JVal → JVal → Bool
  | JVal.null, JVal.null => true
  | JVal.bool a, JVal.bool b => a == b
  | JVal.num a, JVal.num b => decide (a = b)
  | JVal.str a, JVal.str b => a == b
  | JVal.arr xs, JVal.arr ys => deepEqualList xs ys
  | JVal.obj m, JVal.obj n => m.length == n.length && deepEqualMembers m n
  | _, _ => false
/-- Elementwise deep equality of two slices. -/
def deepEqualList : List JVal → List JVal → Bool
  | [], [] => true
  | x :: xs, y :: ys => deepEqual x y && deepEqualList xs ys
  | _, _ => false
/-- Every entry of the first map has a deeply equal value in the second. -/
def deepEqualMembers : List (String × JVal) → List (String × JVal) → Bool
  | [], _ => true
  | (k, v) :: rest, n =>
    (match n.lookup k with
     | some w => deepEqual v w
     | none => false) && deepEqualMembers rest n
end

/-- The function `reflect.DeepEqual` on two map variables: both nil, or both
non-nil and deeply equal. -/
def reflectDeepEqual : GoMap → GoMap → Bool
  | none, none => true
  | some m, some n => deepEqual (JVal.obj m) (JVal.obj n)
  | _, _ => false

/-- `func DeepEqualRaw(a, b []byte) bool`, over the decoder
`jsoniter.Unmarshal(raw, &m)` for a map variable `m`. -/
def DeepEqualRaw (Unmarshal : Bytes → GoMap → GoMap × Option GoError) (a b : Bytes) : Bool :=
  let ra := Unmarshal a none
  match ra.2 with
  | some _ => false
  | none =>
    let rb := Unmarshal b none
    match rb.2 with
    | some _ => false
    | none => reflectDeepEqual ra.1 rb.1

/-! ### A decoder for concrete runs

A decoder for JSON texts in ASCII without escape sequences and with integer
numbers of at most 15 digits (on which `float64` is exact); any other text is
reported as an error.  It stands for `jsoniter.Unmarshal` into a map variable
in concrete runs. -/

/-- Insertion of an entry into a map: `m[k] = v`. -/
def insertKey (k : String) (v : JVal) : List (String × JVal) → List (String × JVal)
  | [] => [(k, v)]
  | (k1, v1) :: rest =>
    if keyLt k k1 then (k, v) :: (k1, v1) :: rest
    else if k = k1 then (k, v) :: rest
    else (k1, v1) :: insertKey k v rest

/-- Skip blanks, tabs, line feeds and carriage returns. -/
def skipWs : Bytes → Bytes
  | [] => []
  | c :: cs => if c = 32 ∨ c = 9 ∨ c = 10 ∨ c = 13 then skipWs cs else c :: cs

/-- The content of a string literal whose opening quote has been read, and
the bytes after its closing quote. -/
def parseString : Bytes → Option (Bytes × Bytes)
  | [] => none
  | c :: cs =>
    if c = 34 then some ([], cs)
    else if c = 92 ∨ c.toNat < 32 ∨ 127 ≤ c.toNat then none
    else
      match parseString cs with
      | some (s, r) => some (c :: s, r)
      | none => none

/-- The leading decimal digits, and the bytes after them. -/
def parseDigits : Bytes → List Nat × Bytes
  | [] => ([], [])
  | c :: cs =>
    if 48 ≤ c.toNat ∧ c.toNat ≤ 57 then ((c.toNat - 48) :: (parseDigits cs).1, (parseDigits cs).2)
    else ([], c :: cs)

/-- An integer literal, as the number it denotes. -/
def parseNumber (cs : Bytes) : Option (ℚ × Bytes) :=
  let neg := cs.head? == some 45
  let r := parseDigits (if neg then cs.drop 1 else cs)
  let n : Int := Int.ofNat (r.1.foldl (fun acc d => 10 * acc + d) 0)
  if r.1.isEmpty || decide (15 < r.1.length) then none
  else if r.2.head? == some 46 || r.2.head? == some 101 || r.2.head? == some 69 then none
  else some (((if neg then -n else n : Int) : ℚ), r.2)

mutual
/-- A JSON value, and the bytes after it; the first argument bounds the
number of nested calls. -/
def parseValue : Nat → Bytes → Option (JVal × Bytes)
  | 0, _ => none
  | fuel + 1, cs =>
    if [110, 117, 108, 108].isPrefixOf (skipWs cs) then some (JVal.null, (skipWs cs).drop 4)
    else if [116, 114, 117, 101].isPrefixOf (skipWs cs) then
      some (JVal.bool true, (skipWs cs).drop 4)
    else if [102, 97, 108, 115, 101].isPrefixOf (skipWs cs) then
      some (JVal.bool false, (skipWs cs).drop 5)
    else
      match skipWs cs with
      | [] => none
      | c :: r =>
        if c = 34 then
          match parseString r with
          | some (s, r1) => some (JVal.str (textOf s), r1)
          | none => none
        else if c = 91 then
          if (skipWs r).head? == some 93 then some (JVal.arr [], (skipWs r).drop 1)
          else parseElements fuel r []
        else if c = 123 then
          if (skipWs r).head? == some 125 then some (JVal.obj [], (skipWs r).drop 1)
          else parseMembers fuel r []
        else
          match parseNumber (c :: r) with
          | some (x, r1) => some (JVal.num x, r1)
          | none => none
/-- The elements of an array after its opening bracket, up to the closing one. -/
def parseElements : Nat → Bytes → List JVal → Option (JVal × Bytes)
  | 0, _, _ => none
  | fuel + 1, cs, acc =>
    match parseValue fuel cs with
    | none => none
    | some (v, r) =>
      if (skipWs r).head? == some 44 then parseElements fuel ((skipWs r).drop 1) (acc ++ [v])
      else if (skipWs r).head? == some 93 then some (JVal.arr (acc ++ [v]), (skipWs r).drop 1)
      else none
/-- The members of an object after its opening brace, up to the closing one;
each member is stored into the map as it is read. -/
def parseMembers : Nat → Bytes → List (String × JVal) → Option (JVal × Bytes)
  | 0, _, _ => none
  | fuel + 1, cs, acc =>
    if (skipWs cs).head? == some 34 then
      match parseString ((skipWs cs).drop 1) with
      | none => none
      | some (k, r) =>
        if (skipWs r).head? == some 58 then
          match parseValue fuel ((skipWs r).drop 1) with
          | none => none
          | some (v, r1) =>
            if (skipWs r1).head? == some 44 then
              parseMembers fuel ((skipWs r1).drop 1) (insertKey (textOf k) v acc)
            else if (skipWs r1).head? == some 125 then
              some (JVal.obj (insertKey (textOf k) v acc), (skipWs r1).drop 1)
            else none
        else none
    else none
end

/-- Decoding a JSON text into a map variable: `null` sets the variable to nil,
an object stores its members into the map, anything else is an error and
leaves the variable as it was. -/
def refUnmarshal (raw : Bytes) (v : GoMap) : GoMap × Option GoError :=
  if [110, 117, 108, 108].isPrefixOf (skipWs raw) then
    if (skipWs ((skipWs raw).drop 4)).isEmpty then (none, none)
    else (v, some ⟨"invalid character after top-level value"⟩)
  else if (skipWs raw).head? == some 123 then
    match parseValue (raw.length + 1) raw with
    | some (JVal.obj m, r) =>
      if (skipWs r).isEmpty then
        (some (m.foldl (fun acc kv => insertKey kv.1 kv.2 acc) (v.getD [])), none)
      else (v, some ⟨"invalid character after top-level value"⟩)
    | _ => (v, some ⟨"invalid JSON text"⟩)
  else (v, some ⟨"cannot unmarshal into Go value of type map"⟩)

/-! ## Vocabulary of the statements -/

/-- The positional arguments `key, raw, xxh, raw, xxh` of the insert. -/
def insertArgs (key : String) (raw : Bytes) (xxh : Nat) : List SqlArg :=
  [SqlArg.str key, SqlArg.bytes raw, SqlArg.u64 xxh, SqlArg.bytes raw, SqlArg.u64 xxh]

/-- The error returned by an `Execute` call, `none` for nil. -/
def errorOf {α : Type} : Except GoError α → Option GoError
  | Except.error err => some err
  | Except.ok _ => none

/-- The hook invocations recorded in a trace, in order. -/
def hookCalls : List (Event ι) → List (String × String × ι)
  | [] => []
  | Event.hook col key i :: rest => (col, key, i) :: hookCalls rest
  | _ :: rest => hookCalls rest

/-- A driver whose registry still marks `c` while the backend has no table for
it (the table was dropped behind the driver's back); the hook is set. -/
def staleDriver : Driver MemDB String :=
  { TablePrefix := "t_", ExistsCol := fun c => if c = "c" then some true else none,
    AfterUpdateFunc := true, conn := ⟨[], []⟩, trace := [] }

/-- Whether a statement ends in the clause that updates `j` and `xxh` of the
stored row on a duplicate key. -/
def carriesUpdate (sql : String) : Bool :=
  " ON DUPLICATE KEY UPDATE j=?, xxh=?".data.isSuffixOf sql.data

/-- A driver over a backend whose table `t_c` holds, under the key `k`, the
JSON number `42`: a payload that does not decode into a `*string` target. -/
def numberDriver : Driver MemDB String :=
  { TablePrefix := "t_", ExistsCol := fun _ => none, AfterUpdateFunc := false,
    conn := ⟨["t_c"], [⟨"t_c", "k", bytesOf "42", 0⟩]⟩, trace := [] }

/-! ## The registry across the methods -/

section Registry

variable (D : Deps σ ι τ) (t : Driver σ ι)

@[simp] theorem step_ExistsCol (conn : σ) (e : Event ι) :
    (t.step conn e).ExistsCol = t.ExistsCol := rfl

@[simp] theorem afterUpdate_ExistsCol (col key : String) (i : ι) :
    (t.afterUpdate col key i).ExistsCol = t.ExistsCol := by
  unfold Driver.afterUpdate
  split <;> rfl

/-- A collection already marked makes `TryCreateTable` return at once. -/
theorem TryCreateTable_marked (col : String) (h : (t.ExistsCol col).isSome = true) :
    TryCreateTable D t col = (none, t) := by
  unfold TryCreateTable
  simp [h]

/-- An entry of the registry survives `TryCreateTable`. -/
theorem TryCreateTable_keeps (col c : String) (b : Bool) (h : t.ExistsCol c = some b) :
    (TryCreateTable D t col).2.ExistsCol c = some b := by
  unfold TryCreateTable
  by_cases hm : (t.ExistsCol col).isSome = true
  · simp [hm, h]
  · have hne : c ≠ col := by
      rintro rfl
      simp [h] at hm
    simp only [hm, Bool.false_eq_true, if_false]
    split
    · simpa using h
    · simp [Function.update_noteq hne, h]

theorem ReadRaw_ExistsCol (col key : String) :
    (ReadRaw D t col key).2.ExistsCol = (TryCreateTable D t col).2.ExistsCol := by
  unfold ReadRaw
  rcases TryCreateTable D t col with ⟨_ | e, t1⟩
  · simp only
    split
    · rfl
    · split <;> rfl
  · rfl

theorem Read_ExistsCol (col key : String) (v : τ) :
    (Read D t col key v).2.2.ExistsCol = (TryCreateTable D t col).2.ExistsCol := by
  rw [← ReadRaw_ExistsCol D t col key]
  unfold Read
  split <;> simp_all

theorem ReadWithJsoniter_ExistsCol (col key : String) (v : τ) :
    (ReadWithJsoniter D t col key v).2.2.ExistsCol = (TryCreateTable D t col).2.ExistsCol := by
  unfold ReadWithJsoniter
  rcases TryCreateTable D t col with ⟨_ | e, t1⟩
  · simp only
    split
    · rfl
    · split <;> rfl
  · rfl

theorem writeWith_ExistsCol (format : String → String) (col key : String) (i : ι) :
    (writeWith format D t col key i).2.ExistsCol = (TryCreateTable D t col).2.ExistsCol := by
  unfold writeWith
  rcases TryCreateTable D t col with ⟨_ | e, t1⟩
  · simp only
    split
    · rfl
    · split <;> simp
  · rfl

theorem Keys_ExistsCol (col : String) :
    (Keys D t col).2.ExistsCol = (TryCreateTable D t col).2.ExistsCol := by
  unfold Keys
  rcases TryCreateTable D t col with ⟨_ | e, t1⟩
  · simp only
    split
    · rfl
    · split <;> rfl
  · rfl

theorem KeysWhereSQL_ExistsCol (col WhereSQL : String) :
    (KeysWhereSQL D t col WhereSQL).2.ExistsCol = (TryCreateTable D t col).2.ExistsCol := by
  unfold KeysWhereSQL
  rcases TryCreateTable D t col with ⟨_ | e, t1⟩
  · simp only
    split
    · rfl
    · rfl
    · split <;> rfl
  · rfl

end Registry


/-! ## Shared facts about the methods -/

section Shared

variable (D : Deps σ ι τ) (t : Driver σ ι)

theorem TryCreateTable_TablePrefix (col : String) :
    (TryCreateTable D t col).2.TablePrefix = t.TablePrefix := by
  unfold TryCreateTable
  split
  · rfl
  · dsimp only
    split <;> rfl

theorem TryCreateTable_AfterUpdateFunc (col : String) :
    (TryCreateTable D t col).2.AfterUpdateFunc = t.AfterUpdateFunc := by
  unfold TryCreateTable
  split
  · rfl
  · dsimp only
    split <;> rfl

/-- What `Write` and `WriteIgnore` do once the table is ensured and the value
serialized: one `Execute`, then the hook, then the return of Execute's error. -/
theorem writeWith_run (format : String → String) (col key : String) (i : ι) (raw : Bytes)
    (t1 : Driver σ ι) (hc : TryCreateTable D t col = (none, t1))
    (hm : D.MarshalIndent i = Except.ok raw) :
    writeWith format D t col key i =
      (errorOf (D.Execute t1.conn (format (t.TablePrefix ++ col))
          (insertArgs key raw (D.Sum64 (raw ++ bytesOf key)))).1,
       (t1.step (D.Execute t1.conn (format (t.TablePrefix ++ col))
          (insertArgs key raw (D.Sum64 (raw ++ bytesOf key)))).2
          (Event.execute (format (t.TablePrefix ++ col))
            (insertArgs key raw (D.Sum64 (raw ++ bytesOf key))))).afterUpdate col key i) := by
  have hp : t1.TablePrefix = t.TablePrefix := by
    have := TryCreateTable_TablePrefix D t col
    rw [hc] at this
    exact this
  unfold writeWith
  simp only [hc, hm, Driver.TableName, hp, insertArgs]
  split <;> simp_all [errorOf]

theorem writeWith_create_failed (format : String → String) (col key : String) (i : ι)
    (err : GoError) (h : (TryCreateTable D t col).1 = some err) :
    writeWith format D t col key i = (some err, (TryCreateTable D t col).2) := by
  unfold writeWith
  rcases hr : TryCreateTable D t col with ⟨_ | e, t1⟩
  · simp [hr] at h
  · simp [hr] at h
    simp [h]

theorem writeWith_marshal_failed (format : String → String) (col key : String) (i : ι)
    (err : GoError) (hc : (TryCreateTable D t col).1 = none)
    (hm : D.MarshalIndent i = Except.error err) :
    writeWith format D t col key i = (some err, (TryCreateTable D t col).2) := by
  unfold writeWith
  rcases hr : TryCreateTable D t col with ⟨_ | e, t1⟩
  · simp [hm]
  · simp [hr] at hc

end Shared

/-! ## Table creation and the registry -/

/-- C5: for a collection not yet in the registry, `TryCreateTable` issues one
`CREATE TABLE IF NOT EXISTS` statement, for the table `TablePrefix + col`; when
the backend returns an error, that error is returned and the registry is left
as it was; when the backend succeeds, nil is returned and the collection is
marked in the registry. -/
theorem TryCreateTable_unmarked (D : Deps σ ι τ) (t : Driver σ ι) (col : String)
    (h : t.ExistsCol col = none) :
    (∃ rest, createTableSQL (t.TableName col)
        = "CREATE TABLE IF NOT EXISTS `" ++ (t.TablePrefix ++ col) ++ "`" ++ rest) ∧
    (TryCreateTable D t col).2.trace
        = t.trace ++ [Event.execute (createTableSQL (t.TableName col)) []] ∧
    (TryCreateTable D t col).2.conn
        = (D.Execute t.conn (createTableSQL (t.TableName col)) []).2 ∧
    (∀ err, (D.Execute t.conn (createTableSQL (t.TableName col)) []).1 = Except.error err →
      (TryCreateTable D t col).1 = some err ∧
      (TryCreateTable D t col).2.ExistsCol = t.ExistsCol) ∧
    (∀ n, (D.Execute t.conn (createTableSQL (t.TableName col)) []).1 = Except.ok n →
      (TryCreateTable D t col).1 = none ∧
      (TryCreateTable D t col).2.ExistsCol col = some true ∧
      ∀ c, c ≠ col → (TryCreateTable D t col).2.ExistsCol c = t.ExistsCol c) := by
  have hm : TryCreateTable D t col =
      match (D.Execute t.conn (createTableSQL (t.TableName col)) []).1 with
      | Except.error err =>
        (some err, t.step (D.Execute t.conn (createTableSQL (t.TableName col)) []).2
          (Event.execute (createTableSQL (t.TableName col)) []))
      | Except.ok _ =>
        (none, { t.step (D.Execute t.conn (createTableSQL (t.TableName col)) []).2
          (Event.execute (createTableSQL (t.TableName col)) []) with
          ExistsCol := Function.update t.ExistsCol col (some true) }) := by
    unfold TryCreateTable
    simp [h]
  refine ⟨⟨" ( `aid` BIGINT NOT NULL AUTO_INCREMENT, `id` VARCHAR(128) NOT NULL, j LONGTEXT NOT NULL, xxh BIGINT UNSIGNED, create_time INT DEFAULT UNIX_TIMESTAMP(), update_time DATETIME DEFAULT 0 ON UPDATE CURRENT_TIMESTAMP(), PRIMARY KEY (`aid`), UNIQUE (`id`), UNIQUE (`xxh`)) ROW_FORMAT=COMPRESSED", ?_⟩, ?_, ?_, ?_, ?_⟩
  · unfold createTableSQL Driver.TableName
    rw [String.append_assoc _ "`"]
    rfl
  · rw [hm]
    split <;> rfl
  · rw [hm]
    split <;> rfl
  · intro err he
    rw [hm]
    simp [he, Driver.step]
  · intro n hn
    rw [hm]
    simp only [hn, Function.update_same, true_and]
    intro c hc
    exact Function.update_noteq hc _ _

/-- C5 at concrete inputs: on a fresh driver the table of `users` is created and
the collection marked; with an empty table name the backend's error comes back
and nothing is marked. -/
theorem TryCreateTable_unmarked_witness :
    ((TryCreateTable memDeps (newDriver "t_" false) "users").1 = none ∧
      (TryCreateTable memDeps (newDriver "t_" false) "users").2.ExistsCol "users" = some true ∧
      (TryCreateTable memDeps (newDriver "t_" false) "users").2.conn.tables = ["t_users"]) ∧
    ((TryCreateTable memDeps (newDriver "" false) "").1 = some ⟨"Incorrect table name ''"⟩ ∧
      (TryCreateTable memDeps (newDriver "" false) "").2.ExistsCol
        = (newDriver "" false).ExistsCol) :=
  ⟨⟨((TryCreateTable_unmarked memDeps (newDriver "t_" false) "users" rfl).2.2.2.2 0
        rfl).1,
    ((TryCreateTable_unmarked memDeps (newDriver "t_" false) "users" rfl).2.2.2.2 0
        rfl).2.1,
    by decide⟩,
   (TryCreateTable_unmarked memDeps (newDriver "" false) "" rfl).2.2.2.1
      ⟨"Incorrect table name ''"⟩ rfl⟩

/-- C6: the registry only grows.  An entry marked before a call of
`TryCreateTable`, and hence of any of the methods that start with it, is still
marked after it; and when the requested collection is already marked,
`TryCreateTable` returns nil without any call to the backend (driver, backend
state and trace are as before). -/
theorem registry_only_grows (D : Deps σ ι τ) (t : Driver σ ι) (col key WhereSQL : String)
    (i : ι) (v : τ) :
    (∀ c b, t.ExistsCol c = some b →
      (TryCreateTable D t col).2.ExistsCol c = some b ∧
      (ReadRaw D t col key).2.ExistsCol c = some b ∧
      (Read D t col key v).2.2.ExistsCol c = some b ∧
      (ReadWithJsoniter D t col key v).2.2.ExistsCol c = some b ∧
      (Write D t col key i).2.ExistsCol c = some b ∧
      (WriteIgnore D t col key i).2.ExistsCol c = some b ∧
      (Keys D t col).2.ExistsCol c = some b ∧
      (KeysWhereSQL D t col WhereSQL).2.ExistsCol c = some b) ∧
    ((t.ExistsCol col).isSome = true → TryCreateTable D t col = (none, t)) := by
  refine ⟨?_, TryCreateTable_marked D t col⟩
  intro c b h
  have hk := TryCreateTable_keeps D t col c b h
  refine ⟨hk, ?_, ?_, ?_, ?_, ?_, ?_, ?_⟩
  · rw [ReadRaw_ExistsCol]; exact hk
  · rw [Read_ExistsCol]; exact hk
  · rw [ReadWithJsoniter_ExistsCol]; exact hk
  · unfold Write; rw [writeWith_ExistsCol]; exact hk
  · unfold WriteIgnore; rw [writeWith_ExistsCol]; exact hk
  · rw [Keys_ExistsCol]; exact hk
  · rw [KeysWhereSQL_ExistsCol]; exact hk

/-- C6 at a concrete input: after `users` has been marked, ensuring `orders`
keeps `users` marked, and ensuring `users` again changes nothing. -/
theorem registry_only_grows_witness :
    ((TryCreateTable memDeps (TryCreateTable memDeps (newDriver "t_" false) "users").2
        "orders").2.ExistsCol "users" = some true) ∧
    (TryCreateTable memDeps (TryCreateTable memDeps (newDriver "t_" false) "users").2 "users"
      = (none, (TryCreateTable memDeps (newDriver "t_" false) "users").2)) :=
  ⟨((registry_only_grows memDeps (TryCreateTable memDeps (newDriver "t_" false) "users").2
      "orders" "k" "1" "v" "").1 "users" true (by decide)).1,
   (registry_only_grows memDeps (TryCreateTable memDeps (newDriver "t_" false) "users").2
      "users" "k" "1" "v" "").2 (by decide)⟩

/-! ## The write path -/

theorem hookCalls_append (xs ys : List (Event ι)) :
    hookCalls (xs ++ ys) = hookCalls xs ++ hookCalls ys := by
  induction xs with
  | nil => rfl
  | cons e rest ih => cases e <;> simp [hookCalls, ih]

/-- `TryCreateTable` never invokes the hook. -/
theorem TryCreateTable_hookCalls (D : Deps σ ι τ) (t : Driver σ ι) (col : String) :
    hookCalls (TryCreateTable D t col).2.trace = hookCalls t.trace := by
  unfold TryCreateTable
  split
  · rfl
  · dsimp only
    split <;> simp [Driver.step, hookCalls_append, hookCalls]

/-- C7: once the table is ensured and the value serialized to `raw`, `Write`
and `WriteIgnore` each make one `Execute` call, with the positional arguments
`key, raw, d, raw, d`, where `d` is the digest of `raw` followed by the bytes of
the key; `d` is below `2 ^ 64`, the `j` argument is `raw` alone, and both
methods use the same `d`. -/
theorem write_arguments (D : Deps σ ι τ) (t t1 : Driver σ ι) (col key : String) (i : ι)
    (raw : Bytes) (hc : TryCreateTable D t col = (none, t1))
    (hm : D.MarshalIndent i = Except.ok raw) :
    (Write D t col key i).2.trace
      = t1.trace ++ Event.execute (writeSQL (t.TablePrefix ++ col))
          [SqlArg.str key, SqlArg.bytes raw, SqlArg.u64 (D.Sum64 (raw ++ bytesOf key)),
           SqlArg.bytes raw, SqlArg.u64 (D.Sum64 (raw ++ bytesOf key))]
        :: (if t.AfterUpdateFunc then [Event.hook col key i] else []) ∧
    (Write D t col key i).2.conn
      = (D.Execute t1.conn (writeSQL (t.TablePrefix ++ col))
          [SqlArg.str key, SqlArg.bytes raw, SqlArg.u64 (D.Sum64 (raw ++ bytesOf key)),
           SqlArg.bytes raw, SqlArg.u64 (D.Sum64 (raw ++ bytesOf key))]).2 ∧
    (WriteIgnore D t col key i).2.trace
      = t1.trace ++ Event.execute (writeIgnoreSQL (t.TablePrefix ++ col))
          [SqlArg.str key, SqlArg.bytes raw, SqlArg.u64 (D.Sum64 (raw ++ bytesOf key)),
           SqlArg.bytes raw, SqlArg.u64 (D.Sum64 (raw ++ bytesOf key))]
        :: (if t.AfterUpdateFunc then [Event.hook col key i] else []) ∧
    (WriteIgnore D t col key i).2.conn
      = (D.Execute t1.conn (writeIgnoreSQL (t.TablePrefix ++ col))
          [SqlArg.str key, SqlArg.bytes raw, SqlArg.u64 (D.Sum64 (raw ++ bytesOf key)),
           SqlArg.bytes raw, SqlArg.u64 (D.Sum64 (raw ++ bytesOf key))]).2 ∧
    D.Sum64 (raw ++ bytesOf key) < 2 ^ 64 := by
  have ha : t1.AfterUpdateFunc = t.AfterUpdateFunc := by
    have := TryCreateTable_AfterUpdateFunc D t col
    rw [hc] at this
    exact this
  refine ⟨?_, ?_, ?_, ?_, D.Sum64_lt _⟩
  · unfold Write
    rw [writeWith_run D t writeSQL col key i raw t1 hc hm]
    unfold Driver.afterUpdate Driver.step insertArgs
    simp only [ha]
    split <;> simp
  · unfold Write
    rw [writeWith_run D t writeSQL col key i raw t1 hc hm]
    unfold Driver.afterUpdate Driver.step insertArgs
    simp only [ha]
    split <;> rfl
  · unfold WriteIgnore
    rw [writeWith_run D t writeIgnoreSQL col key i raw t1 hc hm]
    unfold Driver.afterUpdate Driver.step insertArgs
    simp only [ha]
    split <;> simp
  · unfold WriteIgnore
    rw [writeWith_run D t writeIgnoreSQL col key i raw t1 hc hm]
    unfold Driver.afterUpdate Driver.step insertArgs
    simp only [ha]
    split <;> rfl

/-- C7 at a concrete input: writing the string `hello` under the key `k`. -/
theorem write_arguments_witness :
    (Write memDeps (newDriver "t_" false) "c" "k" "hello").2.trace
      = (TryCreateTable memDeps (newDriver "t_" false) "c").2.trace
        ++ Event.execute (writeSQL ("t_" ++ "c"))
          [SqlArg.str "k", SqlArg.bytes (quoteJSON "hello"),
           SqlArg.u64 (fnvDigest (quoteJSON "hello" ++ bytesOf "k")),
           SqlArg.bytes (quoteJSON "hello"),
           SqlArg.u64 (fnvDigest (quoteJSON "hello" ++ bytesOf "k"))]
        :: [] :=
  (write_arguments memDeps (newDriver "t_" false)
    (TryCreateTable memDeps (newDriver "t_" false) "c").2 "c" "k" "hello"
    (quoteJSON "hello") rfl rfl).1

/-- C1, as stated, fails: on a driver with the hook set whose backend rejects
the insert (the table is gone), `Execute` returns an error, `Write` and
`WriteIgnore` return that error, and the hook has been invoked all the same. -/
theorem hook_after_failed_insert :
    staleDriver.AfterUpdateFunc = true ∧
    (memDeps.Execute staleDriver.conn (writeSQL "t_c")
        (insertArgs "k" (quoteJSON "v") (fnvDigest (quoteJSON "v" ++ bytesOf "k")))).1
      = Except.error ⟨"Table doesn't exist"⟩ ∧
    (Write memDeps staleDriver "c" "k" "v").1 = some ⟨"Table doesn't exist"⟩ ∧
    hookCalls (Write memDeps staleDriver "c" "k" "v").2.trace = [("c", "k", "v")] ∧
    (memDeps.Execute staleDriver.conn (writeIgnoreSQL "t_c")
        (insertArgs "k" (quoteJSON "v") (fnvDigest (quoteJSON "v" ++ bytesOf "k")))).1
      = Except.error ⟨"Table doesn't exist"⟩ ∧
    (WriteIgnore memDeps staleDriver "c" "k" "v").1 = some ⟨"Table doesn't exist"⟩ ∧
    hookCalls (WriteIgnore memDeps staleDriver "c" "k" "v").2.trace = [("c", "k", "v")] := by
  refine ⟨rfl, rfl, by decide, by decide, rfl, by decide, by decide⟩

/-- C1, amended: on a driver whose hook is set, `Write` and `WriteIgnore` invoke
the hook once, with the collection, the key and the original value, right
after the `Execute` call of the insert, whether that call succeeded or
returned an error; the error of `Execute` is what the method returns.  When
table creation or serialization fails, the error is returned and the hook is
not invoked. -/
theorem hook_follows_execute (D : Deps σ ι τ) (t : Driver σ ι) (col key : String) (i : ι)
    (hset : t.AfterUpdateFunc = true) :
    (∀ err, (TryCreateTable D t col).1 = some err →
      (Write D t col key i).1 = some err ∧
      hookCalls (Write D t col key i).2.trace = hookCalls t.trace ∧
      (WriteIgnore D t col key i).1 = some err ∧
      hookCalls (WriteIgnore D t col key i).2.trace = hookCalls t.trace) ∧
    (∀ err, (TryCreateTable D t col).1 = none → D.MarshalIndent i = Except.error err →
      (Write D t col key i).1 = some err ∧
      hookCalls (Write D t col key i).2.trace = hookCalls t.trace ∧
      (WriteIgnore D t col key i).1 = some err ∧
      hookCalls (WriteIgnore D t col key i).2.trace = hookCalls t.trace) ∧
    (∀ raw, (TryCreateTable D t col).1 = none → D.MarshalIndent i = Except.ok raw →
      ((Write D t col key i).1
          = errorOf (D.Execute (TryCreateTable D t col).2.conn (writeSQL (t.TablePrefix ++ col))
              (insertArgs key raw (D.Sum64 (raw ++ bytesOf key)))).1 ∧
        (Write D t col key i).2.trace
          = (TryCreateTable D t col).2.trace ++
            [Event.execute (writeSQL (t.TablePrefix ++ col))
                (insertArgs key raw (D.Sum64 (raw ++ bytesOf key))),
             Event.hook col key i] ∧
        hookCalls (Write D t col key i).2.trace = hookCalls t.trace ++ [(col, key, i)]) ∧
      ((WriteIgnore D t col key i).1
          = errorOf (D.Execute (TryCreateTable D t col).2.conn
              (writeIgnoreSQL (t.TablePrefix ++ col))
              (insertArgs key raw (D.Sum64 (raw ++ bytesOf key)))).1 ∧
        (WriteIgnore D t col key i).2.trace
          = (TryCreateTable D t col).2.trace ++
            [Event.execute (writeIgnoreSQL (t.TablePrefix ++ col))
                (insertArgs key raw (D.Sum64 (raw ++ bytesOf key))),
             Event.hook col key i] ∧
        hookCalls (WriteIgnore D t col key i).2.trace
          = hookCalls t.trace ++ [(col, key, i)])) := by
  have hh := TryCreateTable_hookCalls D t col
  refine ⟨?_, ?_, ?_⟩
  · intro err he
    unfold Write WriteIgnore
    rw [writeWith_create_failed D t writeSQL col key i err he,
      writeWith_create_failed D t writeIgnoreSQL col key i err he]
    exact ⟨rfl, hh, rfl, hh⟩
  · intro err hc hm
    unfold Write WriteIgnore
    rw [writeWith_marshal_failed D t writeSQL col key i err hc hm,
      writeWith_marshal_failed D t writeIgnoreSQL col key i err hc hm]
    exact ⟨rfl, hh, rfl, hh⟩
  · intro raw hc hm
    have hpair : TryCreateTable D t col = (none, (TryCreateTable D t col).2) := by
      rw [← hc]
    have ha : (TryCreateTable D t col).2.AfterUpdateFunc = true := by
      rw [TryCreateTable_AfterUpdateFunc, hset]
    unfold Write WriteIgnore
    rw [writeWith_run D t writeSQL col key i raw _ hpair hm,
      writeWith_run D t writeIgnoreSQL col key i raw _ hpair hm]
    simp [Driver.afterUpdate, Driver.step, ha, hookCalls_append, hookCalls, hh]

/-- C1, amended, at a concrete input: the stale driver, whose insert fails. -/
theorem hook_follows_execute_witness :
    staleDriver.AfterUpdateFunc = true ∧
    hookCalls (Write memDeps staleDriver "c" "k" "v").2.trace
      = hookCalls staleDriver.trace ++ [("c", "k", "v")] :=
  ⟨rfl, ((hook_follows_execute memDeps staleDriver "c" "k" "v" rfl).2.2
    (quoteJSON "v") rfl rfl).1.2.2⟩

theorem insert_tail_split :
    ("` (id, j, xxh) VALUES (?, ?, ?) ON DUPLICATE KEY UPDATE j=?, xxh=?" : String)
      = "` (id, j, xxh) VALUES (?, ?, ?)" ++ " ON DUPLICATE KEY UPDATE j=?, xxh=?" := by
  decide

theorem carriesUpdate_append (head : String) :
    carriesUpdate (head ++ " ON DUPLICATE KEY UPDATE j=?, xxh=?") = true := by
  unfold carriesUpdate
  rw [List.isSuffixOf_iff_suffix, String.data_append]
  exact List.suffix_append _ _

/-- C2, as stated, fails: the statement `WriteIgnore` issues ends in the clause
`ON DUPLICATE KEY UPDATE j=?, xxh=?`; on the in-memory backend, which applies
that clause on a conflict on `id`, a `WriteIgnore` of `new` to the key `k`
that stores `old` replaces the stored payload and digest. -/
theorem WriteIgnore_carries_update :
    (WriteIgnore memDeps (newDriver "t_" false) "c" "k" "new").2.trace
      = [Event.execute (createTableSQL "t_c") [],
         Event.execute (writeIgnoreSQL "t_c")
          (insertArgs "k" (quoteJSON "new") (fnvDigest (quoteJSON "new" ++ bytesOf "k")))] ∧
    carriesUpdate (writeIgnoreSQL "t_c") = true ∧
    (Write memDeps (newDriver "t_" false) "c" "k" "old").2.conn.rows
      = [⟨"t_c", "k", quoteJSON "old", fnvDigest (quoteJSON "old" ++ bytesOf "k")⟩] ∧
    (WriteIgnore memDeps (Write memDeps (newDriver "t_" false) "c" "k" "old").2
        "c" "k" "new").2.conn.rows
      = [⟨"t_c", "k", quoteJSON "new", fnvDigest (quoteJSON "new" ++ bytesOf "k")⟩] ∧
    quoteJSON "new" ≠ quoteJSON "old" := by
  refine ⟨rfl, by decide, by decide, by decide, by decide⟩

/-- C2, amended: the statement `WriteIgnore` issues is the statement of `Write`
with the keyword `IGNORE` after `INSERT`.  It ends in the same clause
`ON DUPLICATE KEY UPDATE j=?, xxh=?` and is executed with the same
arguments. -/
theorem WriteIgnore_statement (D : Deps σ ι τ) (t t1 : Driver σ ι) (col key : String) (i : ι)
    (raw : Bytes) (hc : TryCreateTable D t col = (none, t1))
    (hm : D.MarshalIndent i = Except.ok raw) :
    (WriteIgnore D t col key i).2.trace
      = t1.trace ++ Event.execute (writeIgnoreSQL (t.TablePrefix ++ col))
          (insertArgs key raw (D.Sum64 (raw ++ bytesOf key)))
        :: (if t.AfterUpdateFunc then [Event.hook col key i] else []) ∧
    (Write D t col key i).2.trace
      = t1.trace ++ Event.execute (writeSQL (t.TablePrefix ++ col))
          (insertArgs key raw (D.Sum64 (raw ++ bytesOf key)))
        :: (if t.AfterUpdateFunc then [Event.hook col key i] else []) ∧
    writeIgnoreSQL (t.TablePrefix ++ col)
      = "INSERT IGNORE INTO `" ++ (t.TablePrefix ++ col) ++ "` (id, j, xxh) VALUES (?, ?, ?)"
        ++ " ON DUPLICATE KEY UPDATE j=?, xxh=?" ∧
    (writeIgnoreSQL (t.TablePrefix ++ col)).data
      = "INSERT IGNORE".data ++ (writeSQL (t.TablePrefix ++ col)).data.drop 6 ∧
    carriesUpdate (writeIgnoreSQL (t.TablePrefix ++ col)) = true ∧
    carriesUpdate (writeSQL (t.TablePrefix ++ col)) = true := by
  have ha : t1.AfterUpdateFunc = t.AfterUpdateFunc := by
    have := TryCreateTable_AfterUpdateFunc D t col
    rw [hc] at this
    exact this
  have hi : ∀ table, writeIgnoreSQL table
      = "INSERT IGNORE INTO `" ++ table ++ "` (id, j, xxh) VALUES (?, ?, ?)"
        ++ " ON DUPLICATE KEY UPDATE j=?, xxh=?" := by
    intro table
    unfold writeIgnoreSQL
    rw [insert_tail_split, String.append_assoc _ "` (id, j, xxh) VALUES (?, ?, ?)"]
  have hw : ∀ table, writeSQL table
      = "INSERT INTO `" ++ table ++ "` (id, j, xxh) VALUES (?, ?, ?)"
        ++ " ON DUPLICATE KEY UPDATE j=?, xxh=?" := by
    intro table
    unfold writeSQL
    rw [insert_tail_split, String.append_assoc _ "` (id, j, xxh) VALUES (?, ?, ?)"]
  refine ⟨?_, ?_, hi _, ?_, ?_, ?_⟩
  · unfold WriteIgnore
    rw [writeWith_run D t writeIgnoreSQL col key i raw t1 hc hm]
    unfold Driver.afterUpdate Driver.step
    simp only [ha]
    split <;> simp
  · unfold Write
    rw [writeWith_run D t writeSQL col key i raw t1 hc hm]
    unfold Driver.afterUpdate Driver.step
    simp only [ha]
    split <;> simp
  · unfold writeIgnoreSQL writeSQL
    simp only [String.data_append]
    rfl
  · rw [hi]
    exact carriesUpdate_append _
  · rw [hw]
    exact carriesUpdate_append _

/-- C2, amended, at a concrete input. -/
theorem WriteIgnore_statement_witness :
    carriesUpdate (writeIgnoreSQL ((newDriver "t_" false).TablePrefix ++ "c")) = true ∧
    (writeIgnoreSQL ((newDriver "t_" false).TablePrefix ++ "c")).data
      = "INSERT IGNORE".data ++ (writeSQL ((newDriver "t_" false).TablePrefix ++ "c")).data.drop 6 :=
  ⟨(WriteIgnore_statement memDeps (newDriver "t_" false)
      (TryCreateTable memDeps (newDriver "t_" false) "c").2 "c" "k" "new"
      (quoteJSON "new") rfl rfl).2.2.2.2.1,
   (WriteIgnore_statement memDeps (newDriver "t_" false)
      (TryCreateTable memDeps (newDriver "t_" false) "c").2 "c" "k" "new"
      (quoteJSON "new") rfl rfl).2.2.2.1⟩

/-! ## The read path -/

theorem index_nil (k : String) : Data.index [] k = Iface.nil := rfl

/-- `ReadRaw` once the table is ensured: one fetch, then the three cases of
the column `j`. -/
theorem ReadRaw_run (D : Deps σ ι τ) (t t1 : Driver σ ι) (col key : String)
    (hc : TryCreateTable D t col = (none, t1)) :
    ReadRaw D t col key =
      ((match (D.First t1.conn (t.TablePrefix ++ col) key "j").1 with
        | Except.error err => Outcome.ret (none, some err)
        | Except.ok data =>
          match data.index "j" with
          | Iface.nil => Outcome.ret (none, some ⟨"Document not exists"⟩)
          | Iface.str s => Outcome.ret (some (bytesOf s), none)
          | Iface.other _ => Outcome.panic),
       t1.step (D.First t1.conn (t.TablePrefix ++ col) key "j").2
        (Event.first (t.TablePrefix ++ col) key "j")) := by
  have hp : t1.TablePrefix = t.TablePrefix := by
    have := TryCreateTable_TablePrefix D t col
    rw [hc] at this
    exact this
  unfold ReadRaw
  simp only [hc, Driver.TableName, hp]
  split
  · rfl
  · split <;> rfl

/-- C8: `ReadRaw` first ensures the table and returns the error of the table
creation when that fails, without a fetch.  Otherwise it fetches the column
`j` of the row with `id = key` of the table `TablePrefix + col`, and returns an
error and no bytes when the fetch errors, yields no row, or yields a nil `j`;
when the row has a string `j` it returns the bytes of that string and nil. -/
theorem ReadRaw_outcomes (D : Deps σ ι τ) (t : Driver σ ι) (col key : String) :
    (∀ err, (TryCreateTable D t col).1 = some err →
      ReadRaw D t col key = (Outcome.ret (none, some err), (TryCreateTable D t col).2)) ∧
    ((TryCreateTable D t col).1 = none →
      (ReadRaw D t col key).2.trace
        = (TryCreateTable D t col).2.trace ++ [Event.first (t.TablePrefix ++ col) key "j"] ∧
      (∀ err, (D.First (TryCreateTable D t col).2.conn (t.TablePrefix ++ col) key "j").1
          = Except.error err →
        (ReadRaw D t col key).1 = Outcome.ret (none, some err)) ∧
      ((D.First (TryCreateTable D t col).2.conn (t.TablePrefix ++ col) key "j").1
          = Except.ok [] →
        (ReadRaw D t col key).1 = Outcome.ret (none, some ⟨"Document not exists"⟩)) ∧
      (∀ data, (D.First (TryCreateTable D t col).2.conn (t.TablePrefix ++ col) key "j").1
          = Except.ok data → data.index "j" = Iface.nil →
        (ReadRaw D t col key).1 = Outcome.ret (none, some ⟨"Document not exists"⟩)) ∧
      (∀ data s, (D.First (TryCreateTable D t col).2.conn (t.TablePrefix ++ col) key "j").1
          = Except.ok data → data.index "j" = Iface.str s →
        (ReadRaw D t col key).1 = Outcome.ret (some (bytesOf s), none))) := by
  constructor
  · intro err he
    unfold ReadRaw
    rcases hr : TryCreateTable D t col with ⟨_ | e, t1⟩
    · simp [hr] at he
    · simp [hr] at he
      simp [he]
  · intro hc
    have hpair : TryCreateTable D t col = (none, (TryCreateTable D t col).2) := by
      rw [← hc]
    rw [ReadRaw_run D t _ col key hpair]
    refine ⟨rfl, ?_, ?_, ?_, ?_⟩
    · intro err he
      simp only [he]
    · intro he
      simp only [he, index_nil]
    · intro data he hj
      simp only [he, hj]
    · intro data s he hj
      simp only [he, hj]

/-- C8 at concrete inputs: a key that was written is read back as the bytes
stored, a key never written gives an error and no bytes. -/
theorem ReadRaw_outcomes_witness :
    (ReadRaw memDeps (Write memDeps (newDriver "t_" false) "c" "k" "hello").2 "c" "k").1
      = Outcome.ret (some (bytesOf "\"hello\""), none) ∧
    (ReadRaw memDeps (newDriver "t_" false) "c" "k").1
      = Outcome.ret (none, some ⟨"Document not exists"⟩) :=
  ⟨((ReadRaw_outcomes memDeps (Write memDeps (newDriver "t_" false) "c" "k" "hello").2
      "c" "k").2 rfl).2.2.2.2 [("j", Iface.str "\"hello\"")] "\"hello\"" rfl rfl,
   ((ReadRaw_outcomes memDeps (newDriver "t_" false) "c" "k").2 rfl).2.2.1 rfl⟩

/-! ## Key enumeration -/

/-- On rows whose `id` values are the strings `keys`, the loop returns `keys`. -/
theorem idColumn_strings (rows : List Data) (keys : List String)
    (h : rows.map (fun r => r.index "id") = keys.map Iface.str) :
    idColumn rows = Outcome.ret keys := by
  induction rows generalizing keys with
  | nil =>
    cases keys with
    | nil => rfl
    | cons k ks => simp at h
  | cons r rest ih =>
    cases keys with
    | nil => simp at h
    | cons k ks =>
      simp only [List.map_cons, List.cons.injEq] at h
      unfold idColumn
      simp only [h.1, ih ks h.2]

/-- `KeysWhereSQL` once the table is ensured: one query, then the loop. -/
theorem KeysWhereSQL_run (D : Deps σ ι τ) (t t1 : Driver σ ι) (col WhereSQL : String)
    (hc : TryCreateTable D t col = (none, t1)) :
    KeysWhereSQL D t col WhereSQL =
      ((match (D.Query t1.conn (keysWhereSQL (t.TablePrefix ++ col) WhereSQL)).1 with
        | Except.error err => Outcome.ret (none, some err)
        | Except.ok none => Outcome.ret (some [], none)
        | Except.ok (some data) =>
          match idColumn data with
          | Outcome.ret keys => Outcome.ret (some keys, none)
          | Outcome.panic => Outcome.panic),
       t1.step (D.Query t1.conn (keysWhereSQL (t.TablePrefix ++ col) WhereSQL)).2
        (Event.query (keysWhereSQL (t.TablePrefix ++ col) WhereSQL))) := by
  have hp : t1.TablePrefix = t.TablePrefix := by
    have := TryCreateTable_TablePrefix D t col
    rw [hc] at this
    exact this
  unfold KeysWhereSQL
  simp only [hc, Driver.TableName, hp]
  split
  · rfl
  · rfl
  · split <;> rfl

/-- C10: once the table is ensured, `KeysWhereSQL` sends the backend one query,
whose text is `SELECT id FROM `, the prefix, the collection, ` WHERE ` and the
condition as given.  When the query succeeds with rows whose `id` values are
the strings `keys`, it returns `keys`, in the order of the rows and of the
same length; when the backend returns no rows it returns the empty sequence
and nil; an error of the query, or of the table creation, is returned. -/
theorem KeysWhereSQL_query (D : Deps σ ι τ) (t : Driver σ ι) (col WhereSQL : String) :
    (∀ err, (TryCreateTable D t col).1 = some err →
      KeysWhereSQL D t col WhereSQL
        = (Outcome.ret (none, some err), (TryCreateTable D t col).2)) ∧
    ((TryCreateTable D t col).1 = none →
      (KeysWhereSQL D t col WhereSQL).2.trace
        = (TryCreateTable D t col).2.trace ++
          [Event.query ("SELECT id FROM " ++ t.TablePrefix ++ col ++ " WHERE " ++ WhereSQL)] ∧
      (KeysWhereSQL D t col WhereSQL).2.conn
        = (D.Query (TryCreateTable D t col).2.conn
            ("SELECT id FROM " ++ t.TablePrefix ++ col ++ " WHERE " ++ WhereSQL)).2 ∧
      (∀ err, (D.Query (TryCreateTable D t col).2.conn
            ("SELECT id FROM " ++ t.TablePrefix ++ col ++ " WHERE " ++ WhereSQL)).1
          = Except.error err →
        (KeysWhereSQL D t col WhereSQL).1 = Outcome.ret (none, some err)) ∧
      ((D.Query (TryCreateTable D t col).2.conn
            ("SELECT id FROM " ++ t.TablePrefix ++ col ++ " WHERE " ++ WhereSQL)).1
          = Except.ok none →
        (KeysWhereSQL D t col WhereSQL).1 = Outcome.ret (some [], none)) ∧
      (∀ rows keys, (D.Query (TryCreateTable D t col).2.conn
            ("SELECT id FROM " ++ t.TablePrefix ++ col ++ " WHERE " ++ WhereSQL)).1
          = Except.ok (some rows) →
        rows.map (fun r => r.index "id") = keys.map Iface.str →
        (KeysWhereSQL D t col WhereSQL).1 = Outcome.ret (some keys, none) ∧
        keys.length = rows.length)) := by
  have hsql : keysWhereSQL (t.TablePrefix ++ col) WhereSQL
      = "SELECT id FROM " ++ t.TablePrefix ++ col ++ " WHERE " ++ WhereSQL := by
    unfold keysWhereSQL
    rw [← String.append_assoc "SELECT id FROM "]
  constructor
  · intro err he
    unfold KeysWhereSQL
    rcases hr : TryCreateTable D t col with ⟨_ | e, t1⟩
    · simp [hr] at he
    · simp [hr] at he
      simp [he]
  · intro hc
    have hpair : TryCreateTable D t col = (none, (TryCreateTable D t col).2) := by
      rw [← hc]
    rw [KeysWhereSQL_run D t _ col WhereSQL hpair, hsql]
    refine ⟨rfl, rfl, ?_, ?_, ?_⟩
    · intro err he
      simp only [he]
    · intro he
      simp only [he]
    · intro rows keys he hk
      simp only [he, idColumn_strings rows keys hk, true_and]
      have := congrArg List.length hk
      simpa using this.symm

/-- C10 at concrete inputs: the keys of a collection with one document, and the
empty sequence for a collection just created. -/
theorem KeysWhereSQL_query_witness :
    ((KeysWhereSQL memDeps (Write memDeps (newDriver "t_" false) "c" "k" "hello").2
        "c" "1").1 = Outcome.ret (some ["k"], none) ∧ ["k"].length = 1) ∧
    (KeysWhereSQL memDeps (newDriver "t_" false) "c" "1").1 = Outcome.ret (some [], none) :=
  ⟨by
    have h := ((KeysWhereSQL_query memDeps
      (Write memDeps (newDriver "t_" false) "c" "k" "hello").2 "c" "1").2 rfl).2.2.2.2
      [[("id", Iface.str "k")]] ["k"] rfl rfl
    exact h,
   ((KeysWhereSQL_query memDeps (newDriver "t_" false) "c" "1").2 rfl).2.2.2.1 rfl⟩

/-- `Read` returns nil as soon as `ReadRaw` has returned bytes, whatever the
decoder reports. -/
theorem Read_nil_of_ReadRaw (D : Deps σ ι τ) (t : Driver σ ι) (col key : String) (v : τ)
    (raw : Option Bytes) (h : (ReadRaw D t col key).1 = Outcome.ret (raw, none)) :
    (Read D t col key v).1 = Outcome.ret none := by
  unfold Read
  rcases hr : ReadRaw D t col key with ⟨_ | _, t1⟩
  · rename_i a
    rcases a with ⟨b, _ | e⟩
    · rfl
    · simp [hr] at h
  · simp [hr] at h

/-- `ReadWithJsoniter` returns nil as soon as the row has a string `j`,
whatever the decoder reports. -/
theorem ReadWithJsoniter_nil_of_string (D : Deps σ ι τ) (t t1 : Driver σ ι)
    (col key : String) (v : τ) (data : Data) (s : String)
    (hc : TryCreateTable D t col = (none, t1))
    (hf : (D.First t1.conn (t1.TableName col) key "j").1 = Except.ok data)
    (hj : data.index "j" = Iface.str s) :
    (ReadWithJsoniter D t col key v).1 = Outcome.ret none := by
  unfold ReadWithJsoniter
  simp only [hc, hf, hj]

/-- C3 on the code: the stored payload `42` is returned by `ReadRaw`, both
decoders report an error on it for a string target, and `Read` and
`ReadWithJsoniter` return nil all the same. -/
theorem Read_drops_decode_error :
    (ReadRaw memDeps numberDriver "c" "k").1 = Outcome.ret (some (bytesOf "42"), none) ∧
    (memDeps.Unmarshal (bytesOf "42") "old").2.isSome = true ∧
    (memDeps.JsoniterUnmarshal (bytesOf "42") "old").2.isSome = true ∧
    (Read memDeps numberDriver "c" "k" "old").1 = Outcome.ret none ∧
    (ReadWithJsoniter memDeps numberDriver "c" "k" "old").1 = Outcome.ret none := by
  refine ⟨by decide, by decide, by decide, by decide, by decide⟩

/-! ## The retry loop of `DB()` -/

/-- The counter after a failed attempt. -/
theorem DBLoop_error {ε : Type} (cnt : Nat) (err : GoError) (rest : List (Except GoError ε)) :
    DBLoop cnt (Except.error err :: rest)
      = (min (cnt + 1) 60 * Second :: (DBLoop (min (cnt + 1) 60) rest).1,
         (DBLoop (min (cnt + 1) 60) rest).2) := by
  have h : (if cnt + 1 > 60 then 60 else cnt + 1) = min (cnt + 1) 60 := by
    split <;> omega
  simp only [DBLoop, h]

/-- The sleep after the failure of index `k`, in a loop entered with `cnt`. -/
theorem DBLoop_sleep {ε : Type} (fails : List GoError) (rest : List (Except GoError ε)) :
    ∀ (cnt k : Nat), k < fails.length →
      (DBLoop cnt (fails.map Except.error ++ rest)).1.get? k
        = some (min (cnt + k + 1) 60 * Second) := by
  induction fails with
  | nil => intro cnt k hk; simp at hk
  | cons f fs ih =>
    intro cnt k hk
    rw [List.map_cons, List.cons_append, DBLoop_error]
    cases k with
    | zero => simp
    | succ k =>
      simp only [List.length_cons, Nat.add_lt_add_iff_right] at hk
      simp only [List.get?_cons_succ]
      rw [ih (min (cnt + 1) 60) k hk]
      congr 2
      omega

/-- The loop ends at the first successful attempt, after one sleep per failure. -/
theorem DBLoop_returns {ε : Type} (fails : List GoError) (e : ε)
    (rest : List (Except GoError ε)) :
    ∀ cnt : Nat, (DBLoop cnt (fails.map Except.error ++ Except.ok e :: rest)).2 = some e ∧
      (DBLoop cnt (fails.map Except.error ++ Except.ok e :: rest)).1.length = fails.length := by
  induction fails with
  | nil => intro cnt; simp [DBLoop]
  | cons f fs ih =>
    intro cnt
    rw [List.map_cons, List.cons_append, DBLoop_error]
    simpa using ih (min (cnt + 1) 60)

/-- C4, as stated, fails: after the first failed attempt `DB()` sleeps 2
seconds, not `min(1, 60) = 1` second. -/
theorem DB_first_delay :
    (DB (none : Option Unit) [Except.error ⟨"connection refused"⟩, Except.ok ()]).1
      = [2 * Second] ∧
    2 * Second ≠ min 1 60 * Second := by
  decide

/-- C4, amended: in `DB()` on a driver without an engine, the delay slept after
the `n`-th consecutive failed attempt (`n ≥ 1`) is `min(n + 1, 60)` seconds: 2
seconds after the first failure, one second more after each further failure,
and never more than 60 seconds.  When the attempt after the failures
succeeds, `DB()` returns its engine after exactly these sleeps. -/
theorem DB_delay {ε : Type} (fails : List GoError) (rest : List (Except GoError ε))
    (n : Nat) (h1 : 1 ≤ n) (hn : n ≤ fails.length) :
    (DB none (fails.map Except.error ++ rest)).1.get? (n - 1)
      = some (min (n + 1) 60 * Second) ∧
    min (n + 1) 60 * Second ≤ 60 * Second ∧
    (n + 1 < 60 → min (n + 1 + 1) 60 * Second = min (n + 1) 60 * Second + Second) ∧
    (∀ e tail, rest = Except.ok e :: tail →
      (DB none (fails.map Except.error ++ rest)).2 = some e ∧
      (DB none (fails.map Except.error ++ rest)).1.length = fails.length) := by
  refine ⟨?_, ?_, ?_, ?_⟩
  · unfold DB
    rw [DBLoop_sleep fails rest 1 (n - 1) (by omega)]
    congr 2
    omega
  · exact Nat.mul_le_mul_right _ (Nat.min_le_right _ _)
  · intro h
    rw [Nat.min_eq_left (by omega), Nat.min_eq_left (by omega), Nat.add_mul, Nat.one_mul]
  · intro e tail hr
    subst hr
    unfold DB
    exact DBLoop_returns fails e tail 1

/-- C4, amended, at a concrete input: three failures, then success. -/
theorem DB_delay_witness :
    (DB (none : Option Unit) ([⟨"refused"⟩, ⟨"refused"⟩, ⟨"timeout"⟩].map Except.error
        ++ [Except.ok ()])).1.get? (3 - 1)
      = some (min (3 + 1) 60 * Second) :=
  (DB_delay [⟨"refused"⟩, ⟨"refused"⟩, ⟨"timeout"⟩] [Except.ok ()] 3 (by decide)
    (by decide)).1

/-! ## The equality oracle -/

theorem keyLt_iff (a b : String) : keyLt a b = true ↔ a < b := by
  unfold keyLt
  rw [decide_eq_true_iff, String.lt_iff_toList_lt]
  rfl

/-- Strictly increasing keys are pairwise distinct. -/
theorem keysSorted_nodup (m : List (String × JVal)) (h : keysSorted m = true) :
    (m.map Prod.fst).Nodup := by
  unfold keysSorted at h
  rw [decide_eq_true_iff] at h
  refine List.Pairwise.imp ?_ h
  intro a b hab heq
  subst heq
  exact lt_irrefl a ((keyLt_iff a a).1 hab)

theorem mem_of_lookup (m : List (String × JVal)) (k : String) (v : JVal)
    (h : m.lookup k = some v) : (k, v) ∈ m := by
  induction m with
  | nil => simp at h
  | cons p rest ih =>
    obtain ⟨k1, v1⟩ := p
    by_cases hk : k = k1
    · subst hk
      simp [List.lookup] at h
      simp [h]
    · have hb : (k == k1) = false := by simpa using hk
      simp only [List.lookup, hb] at h
      exact List.mem_cons_of_mem _ (ih h)

theorem lookup_of_mem (m : List (String × JVal)) (k : String) (v : JVal)
    (hn : (m.map Prod.fst).Nodup) (h : (k, v) ∈ m) : m.lookup k = some v := by
  induction m with
  | nil => simp at h
  | cons p rest ih =>
    obtain ⟨k1, v1⟩ := p
    simp only [List.map_cons, List.nodup_cons] at hn
    rcases List.mem_cons.1 h with heq | hin
    · cases heq
      simp [List.lookup]
    · have hk : k ≠ k1 := by
        rintro rfl
        exact hn.1 (List.mem_map_of_mem Prod.fst hin)
      have hb : (k == k1) = false := by simpa using hk
      simp only [List.lookup, hb]
      exact ih hn.2 hin

theorem canon_of_mem (m : List (String × JVal)) (k : String) (v : JVal)
    (hc : canonMembers m = true) (h : (k, v) ∈ m) : canon v = true := by
  induction m with
  | nil => simp at h
  | cons p rest ih =>
    obtain ⟨k1, v1⟩ := p
    simp only [canonMembers, Bool.and_eq_true] at hc
    rcases List.mem_cons.1 h with heq | hin
    · cases heq
      exact hc.1
    · exact ih hc.2 hin

/-- Two maps given by key-sorted entries, of the same length, one included in
the other, are the same list of entries. -/
theorem members_eq (m n : List (String × JVal)) (hm : keysSorted m = true)
    (hn : keysSorted n = true) (hlen : m.length = n.length) (hsub : ∀ kv ∈ m, kv ∈ n) :
    m = n := by
  have hnd : m.Nodup := List.Nodup.of_map Prod.fst (keysSorted_nodup m hm)
  have hperm : m.Perm n :=
    (List.subperm_of_subset hnd hsub).perm_of_length_le (le_of_eq hlen.symm)
  have hs : ∀ l : List (String × JVal), keysSorted l = true →
      List.Sorted (fun a b : String × JVal => keyLt a.1 b.1 = true) l := by
    intro l hl
    unfold keysSorted at hl
    rw [decide_eq_true_iff] at hl
    exact List.pairwise_map.1 hl
  haveI : IsAntisymm (String × JVal) (fun a b => keyLt a.1 b.1 = true) :=
    ⟨fun a b hab hba => absurd ((keyLt_iff _ _).1 hba) (lt_asymm ((keyLt_iff _ _).1 hab))⟩
  exact List.eq_of_perm_of_sorted hperm (hs m hm) (hs n hn)

mutual
/-- Deeply equal canonical values are the same value. -/
theorem deepEqual_sound : ∀ (v w : JVal), canon v = true → canon w = true →
    deepEqual v w = true → v = w
  | JVal.null, w, _, _, h => by cases w <;> simp_all [deepEqual]
  | JVal.bool a, w, _, _, h => by cases w <;> simp_all [deepEqual]
  | JVal.num a, w, _, _, h => by cases w <;> simp_all [deepEqual]
  | JVal.str a, w, _, _, h => by cases w <;> simp_all [deepEqual]
  | JVal.arr xs, w, hv, hw, h => by
    cases w with
    | arr ys =>
      simp only [deepEqual] at h
      simp only [canon] at hv hw
      rw [deepEqualList_sound xs ys hv hw h]
    | _ => simp [deepEqual] at h
  | JVal.obj m, w, hv, hw, h => by
    cases w with
    | obj n =>
      simp only [deepEqual, Bool.and_eq_true, beq_iff_eq] at h
      simp only [canon, Bool.and_eq_true] at hv hw
      rw [members_eq m n hv.1 hw.1 h.1 (deepEqualMembers_sound m n hv.2 hw.2 h.2)]
    | _ => simp [deepEqual] at h
/-- Deeply equal canonical slices are the same slice. -/
theorem deepEqualList_sound : ∀ (xs ys : List JVal), canonList xs = true →
    canonList ys = true → deepEqualList xs ys = true → xs = ys
  | [], ys, _, _, h => by cases ys <;> simp_all [deepEqualList]
  | x :: xs, ys, hx, hy, h => by
    cases ys with
    | nil => simp [deepEqualList] at h
    | cons y ys =>
      simp only [deepEqualList, Bool.and_eq_true] at h
      simp only [canonList, Bool.and_eq_true] at hx hy
      rw [deepEqual_sound x y hx.1 hy.1 h.1, deepEqualList_sound xs ys hx.2 hy.2 h.2]
/-- Every entry of the first map is an entry of the second. -/
theorem deepEqualMembers_sound : ∀ (m n : List (String × JVal)), canonMembers m = true →
    canonMembers n = true → deepEqualMembers m n = true → ∀ kv ∈ m, kv ∈ n
  | [], _, _, _, _ => by simp
  | (k, v) :: rest, n, hm, hn, h => by
    simp only [deepEqualMembers, Bool.and_eq_true] at h
    simp only [canonMembers, Bool.and_eq_true] at hm
    intro kv hkv
    rcases List.mem_cons.1 hkv with heq | hin
    · subst heq
      cases hl : n.lookup k with
      | none => simp [hl] at h
      | some w =>
        simp only [hl] at h
        have hmem := mem_of_lookup n k w hl
        rw [deepEqual_sound v w hm.1 (canon_of_mem n k w hn hmem) h.1]
        exact hmem
    · exact deepEqualMembers_sound rest n hm.2 hn h.2 kv hin
end

mutual
/-- A canonical value is deeply equal to itself. -/
theorem deepEqual_self : ∀ (v : JVal), canon v = true → deepEqual v v = true
  | JVal.null, _ => by simp [deepEqual]
  | JVal.bool a, _ => by simp [deepEqual]
  | JVal.num a, _ => by simp [deepEqual]
  | JVal.str a, _ => by simp [deepEqual]
  | JVal.arr xs, hv => by
    simp only [canon] at hv
    simp only [deepEqual]
    exact deepEqualList_self xs hv
  | JVal.obj m, hv => by
    simp only [canon, Bool.and_eq_true] at hv
    simp only [deepEqual, beq_self_eq_true, Bool.true_and]
    exact deepEqualMembers_self m m hv.2
      (fun k v h => lookup_of_mem m k v (keysSorted_nodup m hv.1) h)
/-- A canonical slice is deeply equal to itself. -/
theorem deepEqualList_self : ∀ (xs : List JVal), canonList xs = true →
    deepEqualList xs xs = true
  | [], _ => by simp [deepEqualList]
  | x :: xs, hx => by
    simp only [canonList, Bool.and_eq_true] at hx
    simp only [deepEqualList, Bool.and_eq_true]
    exact ⟨deepEqual_self x hx.1, deepEqualList_self xs hx.2⟩
/-- Entries that are all found in `n` with their own value pass the test. -/
theorem deepEqualMembers_self : ∀ (m n : List (String × JVal)), canonMembers m = true →
    (∀ k v, (k, v) ∈ m → n.lookup k = some v) → deepEqualMembers m n = true
  | [], _, _, _ => by simp [deepEqualMembers]
  | (k, v) :: rest, n, hm, hl => by
    simp only [canonMembers, Bool.and_eq_true] at hm
    simp only [deepEqualMembers, Bool.and_eq_true]
    refine ⟨?_, deepEqualMembers_self rest n hm.2
      (fun k1 v1 h => hl k1 v1 (List.mem_cons_of_mem _ h))⟩
    rw [hl k v (List.mem_cons_self _ _)]
    exact deepEqual_self v hm.1
end

/-- On map variables holding canonical maps, `reflect.DeepEqual` is equality. -/
theorem reflectDeepEqual_iff (x y : GoMap) (hx : canonMap x = true) (hy : canonMap y = true) :
    reflectDeepEqual x y = true ↔ x = y := by
  cases x with
  | none => cases y <;> simp [reflectDeepEqual]
  | some m =>
    cases y with
    | none => simp [reflectDeepEqual]
    | some n =>
      simp only [reflectDeepEqual, canonMap] at *
      constructor
      · intro h
        have := deepEqual_sound _ _ hx hy h
        simpa using this
      · intro h
        cases h
        exact deepEqual_self _ hx

/-- C9: `DeepEqualRaw a b` is false whenever the decoding of `a` or of `b`
into a map variable reports an error.  When both decode, the result is
`reflect.DeepEqual` of the two decoded maps, which is true exactly when the
two maps are the same map; hence the result depends on `a` and `b` through
the maps they decode to only, not on the order of the keys or the blanks in
the texts. -/
theorem DeepEqualRaw_decoded (U : Bytes → GoMap → GoMap × Option GoError) (a b : Bytes) :
    ((U a none).2 ≠ none ∨ (U b none).2 ≠ none → DeepEqualRaw U a b = false) ∧
    ((U a none).2 = none → (U b none).2 = none →
      DeepEqualRaw U a b = reflectDeepEqual (U a none).1 (U b none).1 ∧
      (canonMap (U a none).1 = true → canonMap (U b none).1 = true →
        (DeepEqualRaw U a b = true ↔ (U a none).1 = (U b none).1))) ∧
    (∀ a1 b1, U a1 none = U a none → U b1 none = U b none →
      DeepEqualRaw U a1 b1 = DeepEqualRaw U a b) := by
  refine ⟨?_, ?_, ?_⟩
  · intro h
    unfold DeepEqualRaw
    cases ha : (U a none).2 with
    | some e => simp only [ha]
    | none =>
      cases hb : (U b none).2 with
      | some e => simp only [ha, hb]
      | none => simp [ha, hb] at h
  · intro ha hb
    have hval : DeepEqualRaw U a b = reflectDeepEqual (U a none).1 (U b none).1 := by
      unfold DeepEqualRaw
      simp only [ha, hb]
    refine ⟨hval, ?_⟩
    intro hca hcb
    rw [hval]
    exact reflectDeepEqual_iff _ _ hca hcb
  · intro a1 b1 ha hb
    unfold DeepEqualRaw
    simp only [ha, hb]

/-- C9 at concrete inputs, with the decoder for concrete runs: the two texts
`{"x":1,"y":2}` and `{"y":2,"x":1}` decode to the same map and give true;
`{"x":1}` and `{"x":2}` give false; a text with other blanks and another key
order at depth gives true; a text that is not an object gives false. -/
theorem DeepEqualRaw_decoded_witness :
    DeepEqualRaw refUnmarshal (bytesOf "\x7b\"x\":1,\"y\":2\x7d")
        (bytesOf "\x7b\"y\":2,\"x\":1\x7d") = true ∧
    DeepEqualRaw refUnmarshal (bytesOf "\x7b\"x\":1\x7d") (bytesOf "\x7b\"x\":2\x7d") = false ∧
    DeepEqualRaw refUnmarshal
        (bytesOf "\x7b \"x\" : [1, \x7b\"b\":null,\"a\":true\x7d] \x7d\n")
        (bytesOf "\x7b\"x\":[1,\x7b\"a\":true,\"b\":null\x7d]\x7d") = true ∧
    DeepEqualRaw refUnmarshal (bytesOf "[1]") (bytesOf "\x7b\"x\":1\x7d") = false ∧
    DeepEqualRaw refUnmarshal (bytesOf "\x7b\"x\":1\x7d") (bytesOf "\x7b\"x\":") = false :=
  ⟨(((DeepEqualRaw_decoded refUnmarshal (bytesOf "\x7b\"x\":1,\"y\":2\x7d")
        (bytesOf "\x7b\"y\":2,\"x\":1\x7d")).2.1 (by decide) (by decide)).2
      (by decide) (by decide)).2 rfl,
   by decide,
   by decide,
   (DeepEqualRaw_decoded refUnmarshal (bytesOf "[1]") (bytesOf "\x7b\"x\":1\x7d")).1
      (Or.inl (by decide)),
   (DeepEqualRaw_decoded refUnmarshal (bytesOf "\x7b\"x\":1\x7d") (bytesOf "\x7b\"x\":")).1
      (Or.inr (by decide))⟩

end Sqljsondb
